import Mathlib

/-!
Verification of the mock chat-completion HTTP server (`mock_server.py`).

The server exposes two endpoints:
  * `GET /v1/models`           — handler `list_models`, returns a fixed constant object;
  * `POST /v1/chat/completions` — handler `chat_completions`, parses the body as JSON,
    emits a diagnostic log block, and returns a synthesized response.

Shallow embedding notes.
  * JSON values are modelled by the inductive `Json`.  JSON numbers are modelled as
    integers (`Int`): every number appearing in the server's own output is an integer,
    and body values are only carried around and stringified, never computed with.
  * Python objects parsed from JSON are modelled as association lists with unique keys
    (a parsed `dict` cannot carry duplicate keys); lookup takes the first match.
  * The chat handler is embedded as a function from the parse result of the request
    body (`none` models a body that is not syntactically valid JSON), the formatted
    wall-clock string `time.strftime('%H:%M:%S')` and the integer clock `int(time.time())`
    to a *trace* of events: `logger.info` emissions, a returned response, or a raised
    Python exception.  The trace order is the source's statement order, which lets
    ordering properties (log-then-respond, abort points) be stated directly.
  * Python runtime behaviour of the expressions the handler uses on a non-`dict` body
    (`"k" in x`, `x["k"]`, `x.get(...)`) is modelled per Python semantics: membership on
    lists and strings, `TypeError` on non-iterables and on string-keyed subscripts of
    lists/strings, `AttributeError` for `.get` on non-dicts.
  * The JSON text encoding of the response (`encodeJson`) models the framework's
    response serialization: compact separators, `ensure_ascii=False` (non-ASCII kept
    literally), with the standard two-character escapes and `\u00XX` for the remaining
    control characters.  `decodeJson` models JSON text decoding on such canonical
    (whitespace-free) documents.  Python `repr` of nested strings inside `str()` of a
    container is modelled with plain single quotes (quote-selection and escaping inside
    `repr` are not exercised by any claim).
-/

namespace MockServer

/-- Json values: the tagged union over null, booleans, numbers, strings, arrays and
objects that the request body parses into and the response is built from. -/
inductive Json where
  | null
  | bool (b : Bool)
  | num (n : Int)
  | str (s : String)
  | arr (xs : List Json)
  | obj (kvs : List (String × Json))

/-- Left brace character, written via its code point. -/
def lbr : Char := Char.ofNat 123

/-- Right brace character, written via its code point. -/
def rbr : Char := Char.ofNat 125

/-- Single-quote character, written via its code point. -/
def squote : Char := Char.ofNat 39

/-- Decimal digit character for a digit value below 10. -/
def digitCh (d : Nat) : Char := "0123456789".data.getD d "0".data.head!

/-- Lowercase hexadecimal digit character for a value below 16. -/
def hexCh (d : Nat) : Char := "0123456789abcdef".data.getD d "0".data.head!

/-- Little-endian decimal digits of a natural number, with explicit fuel so that the
definition is structural and kernel-reducible.  Fuel `n` suffices for input `n`. -/
def natDigitsLE : Nat → Nat → List Nat
  | 0, _ => []
  | f + 1, n => if n = 0 then [] else n % 10 :: natDigitsLE f (n / 10)

/-- Decimal digit characters of a natural number, most significant first, as Python
prints it. -/
def natChars (n : Nat) : List Char :=
  if n = 0 then [digitCh 0] else ((natDigitsLE n n).map digitCh).reverse

/-- Decimal character rendering of an integer, as Python prints it. -/
def intChars : Int → List Char
  | Int.ofNat m => natChars m
  | Int.negSucc m => '-' :: natChars (m + 1)

/-- JSON string escaping of one character, per Python `json.dumps` with
`ensure_ascii=False`: the two-character escapes for quote, backslash, backspace,
form feed, newline, carriage return and tab, `\u00XX` for remaining control
characters, and every other character kept literally. -/
def escChar (c : Char) : List Char :=
  if c = '"' then ['\\', '"']
  else if c = '\\' then ['\\', '\\']
  else if c = Char.ofNat 8 then ['\\', 'b']
  else if c = Char.ofNat 9 then ['\\', 't']
  else if c = Char.ofNat 10 then ['\\', 'n']
  else if c = Char.ofNat 12 then ['\\', 'f']
  else if c = Char.ofNat 13 then ['\\', 'r']
  else if c.toNat < 32 then ['\\', 'u', '0', '0', hexCh (c.toNat / 16), hexCh (c.toNat % 16)]
  else [c]

/-- JSON string escaping of a character list. -/
def escStr : List Char → List Char
  | [] => []
  | c :: cs => escChar c ++ escStr cs

/-- Characters of the JSON `null` keyword. -/
def kwNull : List Char := ['n', 'u', 'l', 'l']

/-- Characters of the JSON `true` keyword. -/
def kwTrue : List Char := ['t', 'r', 'u', 'e']

/-- Characters of the JSON `false` keyword. -/
def kwFalse : List Char := ['f', 'a', 'l', 's', 'e']

mutual
/-- Compact JSON text encoding of a value, per the framework's response
serialization: separators without spaces, non-ASCII literal. -/
def enc : Json → List Char
  | .null => kwNull
  | .bool true => kwTrue
  | .bool false => kwFalse
  | .num n => intChars n
  | .str s => '"' :: escStr s.data ++ ['"']
  | .arr xs => '[' :: encArr xs ++ [']']
  | .obj kvs => lbr :: encObj kvs ++ [rbr]

/-- Comma-separated compact encoding of the elements of a nonempty array body. -/
def encArr : List Json → List Char
  | [] => []
  | [x] => enc x
  | x :: y :: xs => enc x ++ ',' :: encArr (y :: xs)

/-- Comma-separated compact encoding of the members of a nonempty object body. -/
def encObj : List (String × Json) → List Char
  | [] => []
  | [(k, v)] => '"' :: escStr k.data ++ '"' :: ':' :: enc v
  | (k, v) :: p :: kvs => '"' :: escStr k.data ++ '"' :: ':' :: enc v ++ ',' :: encObj (p :: kvs)
end

/-- JSON text encoding of a value as a string. -/
def encodeJson (j : Json) : String := String.mk (enc j)

/-- Run of `n` space characters, used by the pretty printer. -/
def spaces (n : Nat) : List Char := List.replicate n ' '

mutual
/-- Pretty-printed JSON text of a value at a given indentation level, per
`json.dumps(body, indent=2, ensure_ascii=False)`: two-space indentation per level,
items one per line, `": "` after keys, empty containers printed inline. -/
def dumpVal (ind : Nat) : Json → List Char
  | .null => kwNull
  | .bool true => kwTrue
  | .bool false => kwFalse
  | .num n => intChars n
  | .str s => '"' :: escStr s.data ++ ['"']
  | .arr [] => ['[', ']']
  | .arr (x :: xs) =>
    '[' :: '\n' :: spaces (ind + 2) ++ dumpVal (ind + 2) x ++ dumpArr (ind + 2) xs
      ++ '\n' :: spaces ind ++ [']']
  | .obj [] => [lbr, rbr]
  | .obj ((k, v) :: kvs) =>
    lbr :: '\n' :: spaces (ind + 2) ++ dumpMember (ind + 2) k v ++ dumpObj (ind + 2) kvs
      ++ '\n' :: spaces ind ++ [rbr]

/-- Remaining elements of a pretty-printed array: each preceded by a comma, a line
break and the indentation. -/
def dumpArr (ind : Nat) : List Json → List Char
  | [] => []
  | x :: xs => ',' :: '\n' :: spaces ind ++ dumpVal ind x ++ dumpArr ind xs

/-- Remaining members of a pretty-printed object. -/
def dumpObj (ind : Nat) : List (String × Json) → List Char
  | [] => []
  | (k, v) :: kvs => ',' :: '\n' :: spaces ind ++ dumpMember ind k v ++ dumpObj ind kvs

/-- One pretty-printed object member: quoted key, colon, space, value. -/
def dumpMember (ind : Nat) (k : String) (v : Json) : List Char :=
  '"' :: escStr k.data ++ '"' :: ':' :: ' ' :: dumpVal ind v
end

/-- Pretty-printed JSON text of a body, as the log statement
`json.dumps(body, indent=2, ensure_ascii=False)` produces it. -/
def dumps (j : Json) : String := String.mk (dumpVal 0 j)

mutual
/-- Python `repr` of a JSON-shaped value: `None`/`True`/`False`, decimal integers,
single-quoted strings, `[a, b]` lists and `\x7b'k': v\x7d` dicts. -/
def pyRepr : Json → List Char
  | .null => ['N', 'o', 'n', 'e']
  | .bool true => ['T', 'r', 'u', 'e']
  | .bool false => ['F', 'a', 'l', 's', 'e']
  | .num n => intChars n
  | .str s => squote :: s.data ++ [squote]
  | .arr [] => ['[', ']']
  | .arr (x :: xs) => '[' :: pyRepr x ++ pyReprArr xs ++ [']']
  | .obj [] => [lbr, rbr]
  | .obj ((k, v) :: kvs) =>
    lbr :: squote :: k.data ++ squote :: ':' :: ' ' :: pyRepr v ++ pyReprObj kvs ++ [rbr]

/-- Remaining elements of a Python list `repr`, each preceded by a comma and space. -/
def pyReprArr : List Json → List Char
  | [] => []
  | x :: xs => ',' :: ' ' :: pyRepr x ++ pyReprArr xs

/-- Remaining members of a Python dict `repr`. -/
def pyReprObj : List (String × Json) → List Char
  | [] => []
  | (k, v) :: kvs => ',' :: ' ' :: squote :: k.data ++ squote :: ':' :: ' ' :: pyRepr v ++ pyReprObj kvs
end

/-- Python `str()` of a JSON-shaped value, as an f-string interpolates it: strings
are taken literally, everything else via `repr`. -/
def pyStr (j : Json) : List Char :=
  match j with
  | .str s => s.data
  | j => pyRepr j

/-- First-match lookup in an association list: the mapping read off a parsed JSON
object (parsed dicts carry unique keys, so first match is the dict entry). -/
def lookupKey : List (String × Json) → String → Option Json
  | [], _ => none
  | (k, v) :: kvs, key => if k = key then some v else lookupKey kvs key

/-- Python exceptions the handler's body expressions can raise. -/
inductive PyError where
  | jsonDecodeError
  | typeError
  | keyError
  | attributeError

/-- Whether `needle` occurs as a contiguous sublist of the second list: Python's
substring membership test for strings. -/
def hasSub (needle : List Char) : List Char → Bool
  | [] => needle.isEmpty
  | c :: t => needle.isPrefixOf (c :: t) || hasSub needle t

/-- Python equality of a JSON-shaped value with a string (as used by list
membership): only a string compares equal to a string. -/
def jsonEqStr (j : Json) (k : String) : Bool :=
  match j with
  | .str s => s = k
  | _ => false

/-- Python expression `k in body` for a string `k`: key membership on dicts,
element membership on lists, substring test on strings, `TypeError` otherwise. -/
def pyInStr (body : Json) (k : String) : Except PyError Bool :=
  match body with
  | .obj kvs => .ok (lookupKey kvs k).isSome
  | .arr xs => .ok (xs.any (fun x => jsonEqStr x k))
  | .str s => .ok (hasSub k.data s.data)
  | _ => .error .typeError

/-- Python expression `body[k]` for a string `k`: dict lookup (`KeyError` when
missing), `TypeError` on lists and strings (string indices), `TypeError` otherwise. -/
def pySubscript (body : Json) (k : String) : Except PyError Json :=
  match body with
  | .obj kvs =>
    match lookupKey kvs k with
    | some v => .ok v
    | none => .error .keyError
  | _ => .error .typeError

/-- Python expression `body.get(k, d)`: defaulting dict lookup; `AttributeError`
on every non-dict value, which has no `get` attribute. -/
def pyGet (body : Json) (k : String) (d : Json) : Except PyError Json :=
  match body with
  | .obj kvs => .ok ((lookupKey kvs k).getD d)
  | _ => .error .attributeError

/-- Observable events of one handler run: a `logger.info` emission with its message,
the returned response value, or a raised Python exception. -/
inductive Event where
  | log (msg : String)
  | ret (response : Json)
  | raise (e : PyError)

/-- The 60-character `"=" * 60` banner line. -/
def separator : String := String.mk (List.replicate 60 '=')

/-- The log line the handler emits for the presence check of key `k`: the ✅ line
with the field value run through `str()` when the key is found, the ❌ line
otherwise; `Except` carries the Python exceptions the two body expressions can raise
on non-dict bodies. -/
def keyLine (body : Json) (k : String) : Except PyError String :=
  match pyInStr body k with
  | .error e => .error e
  | .ok true =>
    match pySubscript body k with
    | .error e => .error e
    | .ok v => .ok ("✅ 成功检测到字段 \x27" ++ k ++ "\x27: " ++ String.mk (pyStr v))
  | .ok false => .ok ("❌ 未检测到 \x27" ++ k ++ "\x27 字段！")

/-- The log message that dumps the whole body, pretty-printed. -/
def bodyDumpMsg (body : Json) : String := "完整请求体 Body:\n" ++ dumps body

/-- The synthesized assistant message content: the greeting with the `str()` forms
of the `api_key` and `conversation_id` values (or their defaults) embedded. -/
def mkContent (apiV convV : Json) : String :=
  "你好！我已经收到了你的请求。\n- api_key: " ++ String.mk (pyStr apiV)
    ++ "\n- conversation_id: " ++ String.mk (pyStr convV)

/-- The response value the chat handler returns, given the clock reading and the
three extracted body values. -/
def mkResponse (now : Int) (modelV apiV convV : Json) : Json :=
  .obj [("id", .str "chatcmpl-mock"),
        ("object", .str "chat.completion"),
        ("created", .num now),
        ("model", modelV),
        ("choices", .arr [
          .obj [("index", .num 0),
                ("message", .obj [("role", .str "assistant"),
                                  ("content", .str (mkContent apiV convV))]),
                ("finish_reason", .str "stop")]]),
        ("usage", .obj [("prompt_tokens", .num 10),
                        ("completion_tokens", .num 20),
                        ("total_tokens", .num 30)])]

/-- The chat-completion handler as an event trace, mirroring the source's statement
order.  `parsed` is the result of parsing the request body as JSON (`none` models a
body on which `await request.json()` raises); `current_time` is the formatted
wall-clock string and `now` the integer unix time. -/
def chat_completions (parsed : Option Json) (current_time : String) (now : Int) : List Event :=
  match parsed with
  | none => [.raise .jsonDecodeError]
  | some body =>
    .log ("\n" ++ separator) ::
    .log ("[" ++ current_time ++ "] 收到请求！") ::
    match keyLine body "api_key" with
    | .error e => [.raise e]
    | .ok la =>
      .log la ::
      match keyLine body "conversation_id" with
      | .error e => [.raise e]
      | .ok lc =>
        .log lc ::
        .log (bodyDumpMsg body) ::
        .log (separator ++ "\n") ::
        match pyGet body "model" (.str "test-model-1") with
        | .error e => [.raise e]
        | .ok mv =>
          match pyGet body "api_key" (.str "未提供") with
          | .error e => [.raise e]
          | .ok av =>
            match pyGet body "conversation_id" (.str "未提供") with
            | .error e => [.raise e]
            | .ok cv => [.ret (mkResponse now mv av cv)]

/-- The model-listing handler: a constant, request-independent value. -/
def list_models : Json :=
  .obj [("object", .str "list"),
        ("data", .arr [
          .obj [("id", .str "test-model-1"),
                ("object", .str "model"),
                ("created", .num 1686935002),
                ("owned_by", .str "custom")]])]

/-- Messages of the `logger.info` events of a trace, in order. -/
def logsOf (tr : List Event) : List String :=
  tr.filterMap (fun e => match e with | .log m => some m | _ => none)

/-- The response returned by a trace, if any. -/
def resultOf (tr : List Event) : Option Json :=
  tr.findSome? (fun e => match e with | .ret r => some r | _ => none)

/-- The text a trace's log messages append to the log sinks: each `logger.info`
message followed by the handler terminator newline. -/
def renderText (tr : List Event) : String :=
  String.join ((logsOf tr).map (fun m => m ++ "\n"))

/-- One handler invocation against the process state observable by later requests
(the accumulated log-file content): the handler appends its log block and produces
its result.  Models that the only cross-request state is the write-only log sink. -/
def handle_request (logFile : List String) (parsed : Option Json) (current_time : String)
    (now : Int) : List String × Option Json :=
  (logFile ++ logsOf (chat_completions parsed current_time now),
   resultOf (chat_completions parsed current_time now))

/-- Field access on a JSON object value: the named member. -/
def getField (j : Json) (k : String) : Option Json :=
  match j with
  | .obj kvs => lookupKey kvs k
  | _ => none

/-- The content string of the single message of a chat response value, when the
response has the expected `choices/message/content` shape. -/
def responseContent (r : Json) : Option String :=
  match getField r "choices" with
  | some (.arr [c]) =>
    match getField c "message" with
    | some m =>
      match getField m "content" with
      | some (.str s) => some s
      | _ => none
    | _ => none
  | _ => none

/-- The `model` value the handler echoes for a parsed object body. -/
def modelOf (kvs : List (String × Json)) : Json :=
  (lookupKey kvs "model").getD (.str "test-model-1")

/-- The `api_key` value embedded in the message content for a parsed object body. -/
def apiOf (kvs : List (String × Json)) : Json :=
  (lookupKey kvs "api_key").getD (.str "未提供")

/-- The `conversation_id` value embedded in the message content for a parsed
object body. -/
def convOf (kvs : List (String × Json)) : Json :=
  (lookupKey kvs "conversation_id").getD (.str "未提供")

/-- The presence-check log line the handler emits for key `k` on an object body. -/
def objKeyLine (kvs : List (String × Json)) (k : String) : String :=
  match lookupKey kvs k with
  | some v => "✅ 成功检测到字段 \x27" ++ k ++ "\x27: " ++ String.mk (pyStr v)
  | none => "❌ 未检测到 \x27" ++ k ++ "\x27 字段！"

/-- The six log messages of a successful chat-completion run, in emission order. -/
def chatLogMsgs (kvs : List (String × Json)) (current_time : String) : List String :=
  ["\n" ++ separator,
   "[" ++ current_time ++ "] 收到请求！",
   objKeyLine kvs "api_key",
   objKeyLine kvs "conversation_id",
   bodyDumpMsg (.obj kvs),
   separator ++ "\n"]

/-- Substring containment of `t` in `s`. -/
def strContains (s t : String) : Prop := ∃ a b : String, s = a ++ t ++ b

/-- Two (possibly overlapping-free) occurrences of `t` in `s`. -/
def strContainsTwice (s t : String) : Prop := ∃ a b c : String, s = a ++ t ++ b ++ t ++ c

/-- Whether a JSON value is an object. -/
def isObj : Json → Bool
  | .obj _ => true
  | _ => false

/-- Whether the input starts with a decimal digit character. -/
def startsDigit : List Char → Bool
  | [] => false
  | c :: _ => c.isDigit

/-- Modelled from the spec (claim wording): the log record structure the claim
asserts — one line per item, in order: the 60-`=` banner, the timestamped header,
the two presence lines, the `完整请求体 Body:` line, the pretty-printed body, and
the closing banner, each line followed by a newline.  Defined for comparison with
the text the handler actually renders. -/
def claimedLogText (kvs : List (String × Json)) (current_time : String) : String :=
  separator ++ "\n"
    ++ "[" ++ current_time ++ "] 收到请求！" ++ "\n"
    ++ objKeyLine kvs "api_key" ++ "\n"
    ++ objKeyLine kvs "conversation_id" ++ "\n"
    ++ "完整请求体 Body:" ++ "\n"
    ++ dumps (.obj kvs) ++ "\n"
    ++ separator ++ "\n"

/-- Numeric value of a hexadecimal digit character, lowercase. -/
def hexVal (c : Char) : Option Nat :=
  "0123456789abcdef".data.indexOf? c

/-- Numeric value of a decimal digit character. -/
def digitVal (c : Char) : Nat := c.toNat - 48

/-- Leading decimal digit characters of the input and the remainder. -/
def pDigits (cs : List Char) : List Char × List Char :=
  cs.span (fun c => c.isDigit)

/-- Natural-number value of a most-significant-first decimal digit string. -/
def natOfDigits (ds : List Char) : Nat :=
  ds.foldl (fun a c => a * 10 + digitVal c) 0

/-- JSON string-body decoder: consumes the characters of a string literal after the
opening quote, undoing the escapes, up to and past the closing quote.  Fuel is
structural; one unit per consumed escape unit suffices. -/
def pStr : Nat → List Char → Option (List Char × List Char)
  | 0, _ => none
  | f + 1, cs =>
    match cs with
    | [] => none
    | c :: rest =>
      if c = '"' then some ([], rest)
      else if c = '\\' then
        match rest with
        | [] => none
        | e :: rest2 =>
          if e = '"' then (pStr f rest2).map (fun p => ('"' :: p.1, p.2))
          else if e = '\\' then (pStr f rest2).map (fun p => ('\\' :: p.1, p.2))
          else if e = '/' then (pStr f rest2).map (fun p => ('/' :: p.1, p.2))
          else if e = 'b' then (pStr f rest2).map (fun p => (Char.ofNat 8 :: p.1, p.2))
          else if e = 't' then (pStr f rest2).map (fun p => (Char.ofNat 9 :: p.1, p.2))
          else if e = 'n' then (pStr f rest2).map (fun p => (Char.ofNat 10 :: p.1, p.2))
          else if e = 'f' then (pStr f rest2).map (fun p => (Char.ofNat 12 :: p.1, p.2))
          else if e = 'r' then (pStr f rest2).map (fun p => (Char.ofNat 13 :: p.1, p.2))
          else if e = 'u' then
            match rest2 with
            | h1 :: h2 :: h3 :: h4 :: rest3 =>
              match hexVal h1, hexVal h2, hexVal h3, hexVal h4 with
              | some a, some b, some c2, some d =>
                (pStr f rest3).map
                  (fun p => (Char.ofNat (((a * 16 + b) * 16 + c2) * 16 + d) :: p.1, p.2))
              | _, _, _, _ => none
            | _ => none
          else none
      else (pStr f rest).map (fun p => (c :: p.1, p.2))

mutual
/-- JSON value decoder on canonical (whitespace-free) documents, with structural
fuel: dispatches on the first character and returns the value and the remainder. -/
def pVal : Nat → List Char → Option (Json × List Char)
  | 0, _ => none
  | f + 1, cs =>
    match cs with
    | [] => none
    | c :: rest =>
      if c = 'n' then
        match rest with
        | 'u' :: 'l' :: 'l' :: r => some (.null, r)
        | _ => none
      else if c = 't' then
        match rest with
        | 'r' :: 'u' :: 'e' :: r => some (.bool true, r)
        | _ => none
      else if c = 'f' then
        match rest with
        | 'a' :: 'l' :: 's' :: 'e' :: r => some (.bool false, r)
        | _ => none
      else if c = '"' then
        (pStr (rest.length + 1) rest).map (fun p => (.str (String.mk p.1), p.2))
      else if c = '[' then
        if rest.head? = some ']' then some (.arr [], rest.tail)
        else (pElems f rest).map (fun p => (.arr p.1, p.2))
      else if c = lbr then
        if rest.head? = some rbr then some (.obj [], rest.tail)
        else (pMembers f rest).map (fun p => (.obj p.1, p.2))
      else if c = '-' then
        match pDigits rest with
        | ([], _) => none
        | (ds, r) => some (.num (-(natOfDigits ds : Int)), r)
      else if c.isDigit then
        match pDigits (c :: rest) with
        | (ds, r) => some (.num (natOfDigits ds : Int), r)
      else none

/-- Decoder for the elements of a nonempty array body, up to and past the closing
bracket. -/
def pElems : Nat → List Char → Option (List Json × List Char)
  | 0, _ => none
  | f + 1, cs =>
    match pVal f cs with
    | none => none
    | some (x, r) =>
      match r with
      | ',' :: r2 => (pElems f r2).map (fun p => (x :: p.1, p.2))
      | ']' :: r2 => some ([x], r2)
      | _ => none

/-- Decoder for the members of a nonempty object body, up to and past the closing
brace. -/
def pMembers : Nat → List Char → Option (List (String × Json) × List Char)
  | 0, _ => none
  | f + 1, cs =>
    match cs with
    | '"' :: rest =>
      match pStr (rest.length + 1) rest with
      | none => none
      | some (k, r) =>
        match r with
        | ':' :: r2 =>
          match pVal f r2 with
          | none => none
          | some (v, r3) =>
            match r3 with
            | ',' :: r4 => (pMembers f r4).map (fun p => ((String.mk k, v) :: p.1, p.2))
            | c :: r4 => if c = rbr then some ([(String.mk k, v)], r4) else none
            | _ => none
        | _ => none
    | _ => none
end

/-- JSON text decoder: runs the value decoder with ample fuel and requires the
whole input to be consumed. -/
def decodeJson (s : String) : Option Json :=
  match pVal (s.data.length + 1) s.data with
  | some (j, []) => some j
  | _ => none

mutual
/-- Fuel sufficient for `pVal` to decode the encoding of a value. -/
def needF : Json → Nat
  | .arr [] => 1
  | .arr (x :: xs) => needElems (x :: xs) + 1
  | .obj [] => 1
  | .obj (p :: kvs) => needMems (p :: kvs) + 1
  | _ => 1

/-- Fuel sufficient for `pElems` on the encoded elements of a nonempty array. -/
def needElems : List Json → Nat
  | [] => 1
  | [x] => needF x + 1
  | x :: y :: xs => max (needF x) (needElems (y :: xs)) + 1

/-- Fuel sufficient for `pMembers` on the encoded members of a nonempty object. -/
def needMems : List (String × Json) → Nat
  | [] => 1
  | [(_, v)] => needF v + 1
  | (_, v) :: p :: kvs => max (needF v) (needMems (p :: kvs)) + 1
end

theorem keyLine_obj (kvs : List (String × Json)) (k : String) :
    keyLine (.obj kvs) k = .ok (objKeyLine kvs k) := by
  cases h : lookupKey kvs k <;>
    simp [keyLine, pyInStr, pySubscript, objKeyLine, h]

/-- Trace of the chat handler on a parsed object body: the six log messages in
order, then the returned response. -/
theorem chat_obj (kvs : List (String × Json)) (current_time : String) (now : Int) :
    chat_completions (some (.obj kvs)) current_time now =
      (chatLogMsgs kvs current_time).map .log
        ++ [.ret (mkResponse now (modelOf kvs) (apiOf kvs) (convOf kvs))] := by
  simp [chat_completions, keyLine_obj, pyGet, chatLogMsgs, modelOf, apiOf, convOf]

theorem logsOf_map_log_append (msgs : List String) (tr : List Event) :
    logsOf (msgs.map .log ++ tr) = msgs ++ logsOf tr := by
  induction msgs with
  | nil => rfl
  | cons m ms ih => simp [logsOf] at ih ⊢; exact ih

theorem resultOf_map_log_append (msgs : List String) (tr : List Event) :
    resultOf (msgs.map .log ++ tr) = resultOf tr := by
  induction msgs with
  | nil => rfl
  | cons m ms ih => simpa [resultOf] using ih

/-- Log messages of a successful run on an object body. -/
theorem logsOf_chat_obj (kvs : List (String × Json)) (current_time : String) (now : Int) :
    logsOf (chat_completions (some (.obj kvs)) current_time now) = chatLogMsgs kvs current_time := by
  rw [chat_obj, logsOf_map_log_append]; rfl

/-- Result of a successful run on an object body. -/
theorem resultOf_chat_obj (kvs : List (String × Json)) (current_time : String) (now : Int) :
    resultOf (chat_completions (some (.obj kvs)) current_time now) =
      some (mkResponse now (modelOf kvs) (apiOf kvs) (convOf kvs)) := by
  rw [chat_obj, resultOf_map_log_append]; rfl

theorem getField_mkResponse_model (now : Int) (mv av cv : Json) :
    getField (mkResponse now mv av cv) "model" = some mv := rfl

theorem responseContent_mkResponse (now : Int) (mv av cv : Json) :
    responseContent (mkResponse now mv av cv) = some (mkContent av cv) := rfl

/-- C1: for every parsed JSON object body, the response's `model` field is the
body's `model` value when the key is present and the literal `"test-model-1"`
when it is absent. -/
theorem chat_model_echo (kvs : List (String × Json)) (current_time : String) (now : Int) :
    ∃ r, resultOf (chat_completions (some (.obj kvs)) current_time now) = some r ∧
      getField r "model" = some ((lookupKey kvs "model").getD (.str "test-model-1")) :=
  ⟨mkResponse now (modelOf kvs) (apiOf kvs) (convOf kvs),
   resultOf_chat_obj kvs current_time now,
   getField_mkResponse_model now (modelOf kvs) (apiOf kvs) (convOf kvs)⟩

/-- C7: on every successfully parsed object body, the handler's trace is all the
log emissions followed by the response return: the complete log block is emitted
before the response is returned, never after. -/
theorem chat_log_then_respond (kvs : List (String × Json)) (current_time : String) (now : Int) :
    ∃ (msgs : List String) (r : Json), chat_completions (some (.obj kvs)) current_time now =
      msgs.map Event.log ++ [Event.ret r] :=
  ⟨chatLogMsgs kvs current_time,
   mkResponse now (modelOf kvs) (apiOf kvs) (convOf kvs),
   chat_obj kvs current_time now⟩

/-- C10: the chat response is a deterministic function of the parsed body and the
two clock readings; in particular it does not depend on the accumulated log-file
state, the only state shared across requests. -/
theorem chat_response_deterministic (logFile₁ logFile₂ : List String) (parsed : Option Json)
    (current_time : String) (now : Int) :
    (handle_request logFile₁ parsed current_time now).2 =
      (handle_request logFile₂ parsed current_time now).2 ∧
    (handle_request logFile₁ parsed current_time now).2 =
      resultOf (chat_completions parsed current_time now) :=
  ⟨rfl, rfl⟩

/-- C4: the model-listing handler takes no request input in the source, so its
embedding is a constant; its value encodes to exactly the fixed JSON document of
the spec, with a `data` array holding exactly one model descriptor. -/
theorem list_models_constant :
    encodeJson list_models =
      "\x7b\"object\":\"list\",\"data\":[\x7b\"id\":\"test-model-1\",\"object\":\"model\",\"created\":1686935002,\"owned_by\":\"custom\"\x7d]\x7d" ∧
    getField list_models "object" = some (.str "list") ∧
    getField list_models "data" = some (.arr [
      .obj [("id", .str "test-model-1"),
            ("object", .str "model"),
            ("created", .num 1686935002),
            ("owned_by", .str "custom")]]) :=
  ⟨by decide, rfl, rfl⟩

theorem mkContent_contains_api (av cv : Json) :
    strContains (mkContent av cv) (String.mk (pyStr av)) :=
  ⟨"你好！我已经收到了你的请求。\n- api_key: ",
   "\n- conversation_id: " ++ String.mk (pyStr cv),
   by simp [mkContent, String.append_assoc]⟩

theorem mkContent_contains_conv (av cv : Json) :
    strContains (mkContent av cv) (String.mk (pyStr cv)) :=
  ⟨"你好！我已经收到了你的请求。\n- api_key: " ++ String.mk (pyStr av)
     ++ "\n- conversation_id: ", "",
   by simp [mkContent, String.append_assoc]⟩

/-- C2: the message content contains the `str()` form of the body's `api_key`
value when present and the literal `未提供` when absent, likewise for
`conversation_id`; for the empty object the content contains `未提供` twice. -/
theorem chat_content_reports_fields (kvs : List (String × Json)) (current_time : String)
    (now : Int) :
    (∃ r s, resultOf (chat_completions (some (.obj kvs)) current_time now) = some r ∧
       responseContent r = some s ∧
       strContains s (String.mk (pyStr (apiOf kvs))) ∧
       strContains s (String.mk (pyStr (convOf kvs)))) ∧
    (∃ r s, resultOf (chat_completions (some (.obj [])) current_time now) = some r ∧
       responseContent r = some s ∧
       strContainsTwice s "未提供") := by
  constructor
  · refine ⟨mkResponse now (modelOf kvs) (apiOf kvs) (convOf kvs),
      mkContent (apiOf kvs) (convOf kvs),
      resultOf_chat_obj kvs current_time now,
      responseContent_mkResponse now (modelOf kvs) (apiOf kvs) (convOf kvs), ?_, ?_⟩
    · exact mkContent_contains_api (apiOf kvs) (convOf kvs)
    · exact mkContent_contains_conv (apiOf kvs) (convOf kvs)
  · refine ⟨mkResponse now (modelOf []) (apiOf []) (convOf []),
      mkContent (apiOf []) (convOf []),
      resultOf_chat_obj [] current_time now,
      responseContent_mkResponse now (modelOf []) (apiOf []) (convOf []),
      "你好！我已经收到了你的请求。\n- api_key: ", "\n- conversation_id: ", "", by decide⟩

/-- C6: every successful chat response carries the constant identifier, type tag,
the integer clock as `created`, role `assistant`, finish reason `stop` and the
constant usage numbers, whatever the body holds. -/
theorem chat_response_constant_fields (kvs : List (String × Json)) (current_time : String)
    (now : Int) :
    ∃ r, resultOf (chat_completions (some (.obj kvs)) current_time now) = some r ∧
      getField r "id" = some (.str "chatcmpl-mock") ∧
      getField r "object" = some (.str "chat.completion") ∧
      getField r "created" = some (.num now) ∧
      (∃ c, getField r "choices" = some (.arr [c]) ∧
        getField c "finish_reason" = some (.str "stop") ∧
        ∃ m, getField c "message" = some m ∧
          getField m "role" = some (.str "assistant")) ∧
      getField r "usage" = some (.obj [("prompt_tokens", .num 10),
                                       ("completion_tokens", .num 20),
                                       ("total_tokens", .num 30)]) :=
  ⟨mkResponse now (modelOf kvs) (apiOf kvs) (convOf kvs),
   resultOf_chat_obj kvs current_time now,
   rfl, rfl, rfl, ⟨_, rfl, rfl, _, rfl, rfl⟩, rfl⟩

/-- C9: a key mapped to JSON null counts as present: the `model` field echoes the
null, the ✅ detection line is logged with the stringified null value `None`, and
the message content embeds `None` rather than the `未提供` default. -/
theorem chat_null_treated_present (kvs : List (String × Json)) (current_time : String)
    (now : Int) :
    (lookupKey kvs "model" = some .null →
      ∃ r, resultOf (chat_completions (some (.obj kvs)) current_time now) = some r ∧
        getField r "model" = some .null) ∧
    (lookupKey kvs "api_key" = some .null →
      "✅ 成功检测到字段 \x27api_key\x27: None"
          ∈ logsOf (chat_completions (some (.obj kvs)) current_time now) ∧
      ∃ r s, resultOf (chat_completions (some (.obj kvs)) current_time now) = some r ∧
        responseContent r = some s ∧ strContains s "None") ∧
    (lookupKey kvs "conversation_id" = some .null →
      "✅ 成功检测到字段 \x27conversation_id\x27: None"
          ∈ logsOf (chat_completions (some (.obj kvs)) current_time now) ∧
      ∃ r s, resultOf (chat_completions (some (.obj kvs)) current_time now) = some r ∧
        responseContent r = some s ∧ strContains s "None") := by
  refine ⟨fun hm => ?_, fun ha => ⟨?_, ?_⟩, fun hc => ⟨?_, ?_⟩⟩
  · exact ⟨mkResponse now (modelOf kvs) (apiOf kvs) (convOf kvs),
      resultOf_chat_obj kvs current_time now,
      by simp [getField_mkResponse_model, modelOf, hm]⟩
  · rw [logsOf_chat_obj]
    have : objKeyLine kvs "api_key" = "✅ 成功检测到字段 \x27api_key\x27: None" := by
      simp [objKeyLine, ha]; decide
    simp [chatLogMsgs, this]
  · refine ⟨mkResponse now (modelOf kvs) (apiOf kvs) (convOf kvs),
      mkContent (apiOf kvs) (convOf kvs),
      resultOf_chat_obj kvs current_time now,
      responseContent_mkResponse now (modelOf kvs) (apiOf kvs) (convOf kvs), ?_⟩
    have : apiOf kvs = .null := by simp [apiOf, ha]
    simpa [this] using mkContent_contains_api .null (convOf kvs)
  · rw [logsOf_chat_obj]
    have : objKeyLine kvs "conversation_id" = "✅ 成功检测到字段 \x27conversation_id\x27: None" := by
      simp [objKeyLine, hc]; decide
    simp [chatLogMsgs, this]
  · refine ⟨mkResponse now (modelOf kvs) (apiOf kvs) (convOf kvs),
      mkContent (apiOf kvs) (convOf kvs),
      resultOf_chat_obj kvs current_time now,
      responseContent_mkResponse now (modelOf kvs) (apiOf kvs) (convOf kvs), ?_⟩
    have : convOf kvs = .null := by simp [convOf, hc]
    simpa [this] using mkContent_contains_conv (apiOf kvs) .null

/-- C9 witness: the theorem applied to a body mapping all three keys to null. -/
theorem chat_null_treated_present_witness :
    (∃ r, resultOf (chat_completions (some (.obj [("model", .null), ("api_key", .null),
        ("conversation_id", .null)])) "00:00:00" 0) = some r ∧
      getField r "model" = some .null) ∧
    ("✅ 成功检测到字段 \x27api_key\x27: None"
        ∈ logsOf (chat_completions (some (.obj [("model", .null), ("api_key", .null),
            ("conversation_id", .null)])) "00:00:00" 0)) ∧
    ("✅ 成功检测到字段 \x27conversation_id\x27: None"
        ∈ logsOf (chat_completions (some (.obj [("model", .null), ("api_key", .null),
            ("conversation_id", .null)])) "00:00:00" 0)) :=
  ⟨(chat_null_treated_present [("model", .null), ("api_key", .null), ("conversation_id", .null)]
      "00:00:00" 0).1 rfl,
   ((chat_null_treated_present [("model", .null), ("api_key", .null), ("conversation_id", .null)]
      "00:00:00" 0).2.1 rfl).1,
   ((chat_null_treated_present [("model", .null), ("api_key", .null), ("conversation_id", .null)]
      "00:00:00" 0).2.2 rfl).1⟩

/-- C5 counterexample: on the empty object body the rendered log record is not
exactly the claimed line structure — the handler pads the record with a leading
and a trailing blank line (the first message starts with a newline and the last
ends with one). -/
theorem chat_log_structure_cex :
    renderText (chat_completions (some (.obj [])) "12:00:00" 0) ≠
      claimedLogText [] "12:00:00" := by decide

/-- C5 amended: the rendered log record is exactly the claimed structure framed
by one leading and one trailing blank line. -/
theorem chat_log_structure_padded (kvs : List (String × Json)) (current_time : String)
    (now : Int) :
    renderText (chat_completions (some (.obj kvs)) current_time now) =
      "\n" ++ claimedLogText kvs current_time ++ "\n" := by
  have hb : ("完整请求体 Body:\n" : String).data = "完整请求体 Body:".data ++ "\n".data := by
    decide
  apply String.ext
  simp [renderText, logsOf_chat_obj, chatLogMsgs, String.join, claimedLogText, bodyDumpMsg,
    String.data_append, hb, List.append_assoc]

/-- C3 counterexample: on a non-object body — the empty JSON array — the handler
does not abort before logging: it emits log records (in fact the whole block)
before failing at the first attribute access. -/
theorem chat_nonobject_logs_cex :
    logsOf (chat_completions (some (.arr [])) "12:00:00" 0) ≠ [] ∧
    resultOf (chat_completions (some (.arr [])) "12:00:00" 0) = none :=
  ⟨by decide, rfl⟩

/-- C3 amended: a body that is not syntactically valid JSON makes the handler fail
with the JSON decode error before any logging or response construction; a body
whose top-level value is not an object instead proceeds into the handler, emits
some or all of the log block, and then raises a `TypeError` or `AttributeError`
at a field access — in both cases no response value is ever constructed. -/
theorem chat_malformed_nonobject_behavior (current_time : String) (now : Int) :
    chat_completions none current_time now = [.raise .jsonDecodeError] ∧
    ∀ b : Json, isObj b = false →
      resultOf (chat_completions (some b) current_time now) = none ∧
      ∃ e, Event.raise e ∈ chat_completions (some b) current_time now := by
  refine ⟨rfl, fun b hb => ?_⟩
  cases b with
  | obj kvs => simp [isObj] at hb
  | null =>
    refine ⟨?_, .typeError, ?_⟩ <;>
      simp [chat_completions, keyLine, pyInStr, resultOf]
  | bool bv =>
    refine ⟨?_, .typeError, ?_⟩ <;>
      simp [chat_completions, keyLine, pyInStr, resultOf]
  | num n =>
    refine ⟨?_, .typeError, ?_⟩ <;>
      simp [chat_completions, keyLine, pyInStr, resultOf]
  | str s =>
    cases h1 : hasSub "api_key".data s.data with
    | true =>
      refine ⟨?_, .typeError, ?_⟩ <;>
        simp [chat_completions, keyLine, pyInStr, pySubscript, h1, resultOf]
    | false =>
      cases h2 : hasSub "conversation_id".data s.data with
      | true =>
        refine ⟨?_, .typeError, ?_⟩ <;>
          simp [chat_completions, keyLine, pyInStr, pySubscript, h1, h2, resultOf]
      | false =>
        refine ⟨?_, .attributeError, ?_⟩ <;>
          simp [chat_completions, keyLine, pyInStr, pySubscript, pyGet, h1, h2, resultOf]
  | arr xs =>
    cases h1 : xs.any (fun x => jsonEqStr x "api_key") with
    | true =>
      refine ⟨?_, .typeError, ?_⟩ <;>
        simp [chat_completions, keyLine, pyInStr, pySubscript, h1, resultOf]
    | false =>
      cases h2 : xs.any (fun x => jsonEqStr x "conversation_id") with
      | true =>
        refine ⟨?_, .typeError, ?_⟩ <;>
          simp [chat_completions, keyLine, pyInStr, pySubscript, h1, h2, resultOf]
      | false =>
        refine ⟨?_, .attributeError, ?_⟩ <;>
          simp [chat_completions, keyLine, pyInStr, pySubscript, pyGet, h1, h2, resultOf]

/-- C3 witness: the amended theorem applied at a malformed body and at a string
body. -/
theorem chat_malformed_nonobject_behavior_witness :
    chat_completions none "12:00:00" 0 = [.raise .jsonDecodeError] ∧
    resultOf (chat_completions (some (.str "x")) "12:00:00" 0) = none ∧
    ∃ e, Event.raise e ∈ chat_completions (some (.str "x")) "12:00:00" 0 :=
  ⟨(chat_malformed_nonobject_behavior "12:00:00" 0).1,
   ((chat_malformed_nonobject_behavior "12:00:00" 0).2 (.str "x") rfl).1,
   ((chat_malformed_nonobject_behavior "12:00:00" 0).2 (.str "x") rfl).2⟩

theorem digitCh_isDigit : ∀ d, d < 10 → (digitCh d).isDigit = true := by decide

theorem digitVal_digitCh : ∀ d, d < 10 → digitVal (digitCh d) = d := by decide

theorem hexVal_hexCh : ∀ d, d < 16 → hexVal (hexCh d) = some d := by decide

theorem isDigit_ne (c : Char) (h : c.isDigit = true) :
    c ≠ 'n' ∧ c ≠ 't' ∧ c ≠ 'f' ∧ c ≠ '"' ∧ c ≠ '[' ∧ c ≠ lbr ∧ c ≠ '-' ∧ c ≠ ']' := by
  refine ⟨?_, ?_, ?_, ?_, ?_, ?_, ?_, ?_⟩ <;>
    · intro he; subst he; exact absurd h (by decide)

theorem natDigitsLE_lt10 : ∀ f n d, d ∈ natDigitsLE f n → d < 10 := by
  intro f
  induction f with
  | zero => intro n d hd; simp [natDigitsLE] at hd
  | succ f ih =>
    intro n d hd
    by_cases hn : n = 0
    · simp [natDigitsLE, hn] at hd
    · simp [natDigitsLE, hn] at hd
      rcases hd with h | h
      · omega
      · exact ih _ _ h

theorem natDigitsLE_eq_digits : ∀ f n, n ≤ f → natDigitsLE f n = Nat.digits 10 n := by
  intro f
  induction f with
  | zero => intro n hn; interval_cases n; simp [natDigitsLE]
  | succ f ih =>
    intro n hn
    by_cases h0 : n = 0
    · simp [natDigitsLE, h0]
    · rw [natDigitsLE, if_neg h0, Nat.digits_def' (by omega) (by omega), ih]
      have : n / 10 < n := Nat.div_lt_self (by omega) (by omega)
      omega

theorem natChars_ne_nil (n : Nat) : natChars n ≠ [] := by
  by_cases h0 : n = 0
  · simp [natChars, h0]
  · have h1 : natDigitsLE n n ≠ [] := by
      cases n with
      | zero => omega
      | succ m => simp [natDigitsLE]
    simp [natChars, h0, h1]

theorem natChars_isDigit (n : Nat) : ∀ c ∈ natChars n, c.isDigit = true := by
  intro c hc
  by_cases h0 : n = 0
  · simp [natChars, h0] at hc; subst hc; decide
  · simp [natChars, h0] at hc
    obtain ⟨d, hd, hdc⟩ := hc
    exact hdc ▸ digitCh_isDigit d (natDigitsLE_lt10 n n d hd)

theorem foldr_digits_ofDigits (L : List Nat) :
    L.foldr (fun d a => a * 10 + d) 0 = Nat.ofDigits 10 L := by
  induction L with
  | nil => simp [Nat.ofDigits]
  | cons d L ih => simp [Nat.ofDigits, ih]; ring

theorem natOfDigits_natChars (n : Nat) : natOfDigits (natChars n) = n := by
  by_cases h0 : n = 0
  · simp [natChars, h0]; decide
  · rw [natChars, if_neg h0, natDigitsLE_eq_digits n n le_rfl, natOfDigits,
      List.foldl_reverse, List.foldr_map]
    have hall : ∀ d ∈ Nat.digits 10 n, ∀ a : Nat,
        a * 10 + digitVal (digitCh d) = a * 10 + d := by
      intro d hd a
      rw [digitVal_digitCh d (Nat.digits_lt_base (by omega) hd)]
    rw [List.foldr_ext _ _ _ hall, foldr_digits_ofDigits, Nat.ofDigits_digits]

theorem needF_pos : ∀ j : Json, 1 ≤ needF j := by
  intro j
  cases j with
  | arr xs => cases xs <;> simp [needF]
  | obj kvs => cases kvs <;> simp [needF]
  | _ => simp [needF]

theorem needElems_pos : ∀ xs : List Json, 1 ≤ needElems xs := by
  intro xs
  match xs with
  | [] => simp [needElems]
  | [x] => simp [needElems]
  | x :: y :: t => simp [needElems]

theorem needMems_pos : ∀ kvs : List (String × Json), 1 ≤ needMems kvs := by
  intro kvs
  match kvs with
  | [] => simp [needMems]
  | [(k, v)] => simp [needMems]
  | (k, v) :: p :: t => simp [needMems]

theorem pDigits_append (l r : List Char) (hl : ∀ c ∈ l, c.isDigit = true)
    (hr : startsDigit r = false) : pDigits (l ++ r) = (l, r) := by
  induction l with
  | nil =>
    simp only [List.nil_append]
    cases r with
    | nil => rfl
    | cons c t =>
      simp [startsDigit] at hr
      simp [pDigits, List.span_eq_take_drop, List.takeWhile, List.dropWhile, hr]
  | cons c l ih =>
    have hc : c.isDigit = true := hl c (List.mem_cons_self c l)
    have ih2 := ih (fun x hx => hl x (List.mem_cons_of_mem c hx))
    simp [pDigits, List.span_eq_take_drop, List.takeWhile_cons, List.dropWhile_cons, hc] at ih2 ⊢
    exact ih2

theorem enc_len_pos (j : Json) : 1 ≤ (enc j).length := by
  cases j with
  | bool b => cases b <;> simp [enc, kwTrue, kwFalse]
  | num n =>
    cases n with
    | ofNat m =>
      have h := List.length_pos.mpr (natChars_ne_nil m)
      simp [enc, intChars]
      omega
    | negSucc m => simp [enc, intChars]
  | _ => simp [enc, kwNull]

theorem enc_head_ne (j : Json) : ∃ c t, enc j = c :: t ∧ c ≠ ']' := by
  cases j with
  | null => exact ⟨'n', _, rfl, by decide⟩
  | bool b =>
    cases b with
    | false => exact ⟨'f', _, rfl, by decide⟩
    | true => exact ⟨'t', _, rfl, by decide⟩
  | num n =>
    cases n with
    | ofNat m =>
      obtain ⟨c, t, hct⟩ := List.exists_cons_of_ne_nil (natChars_ne_nil m)
      have hc : c.isDigit = true := natChars_isDigit m c (by rw [hct]; exact List.mem_cons_self c t)
      exact ⟨c, t, hct, (isDigit_ne c hc).2.2.2.2.2.2.2⟩
    | negSucc m => exact ⟨'-', _, rfl, by decide⟩
  | str s => exact ⟨'"', _, rfl, by decide⟩
  | arr xs => exact ⟨'[', _, rfl, by decide⟩
  | obj kvs => exact ⟨lbr, _, rfl, by decide⟩

theorem startsDigit_cons (c : Char) (t : List Char) : startsDigit (c :: t) = c.isDigit := rfl

theorem pVal_lbr_head (f : Nat) (rest : List Char) :
    pVal (f + 1) (lbr :: rest) =
      (if rest.head? = some rbr then some (.obj [], rest.tail)
       else (pMembers f rest).map (fun p => (.obj p.1, p.2))) := by
  have h1 : ¬(lbr = 'n') := by decide
  have h2 : ¬(lbr = 't') := by decide
  have h3 : ¬(lbr = 'f') := by decide
  have h4 : ¬(lbr = '"') := by decide
  have h5 : ¬(lbr = '[') := by decide
  simp only [pVal, if_neg h1, if_neg h2, if_neg h3, if_neg h4, if_neg h5]
  simp

theorem pVal_digit_head (f : Nat) (c : Char) (rest : List Char) (h : c.isDigit = true) :
    pVal (f + 1) (c :: rest) =
      some (.num (natOfDigits (pDigits (c :: rest)).1 : Int), (pDigits (c :: rest)).2) := by
  obtain ⟨h1, h2, h3, h4, h5, h6, h7, _⟩ := isDigit_ne c h
  simp only [pVal, if_neg h1, if_neg h2, if_neg h3, if_neg h4, if_neg h5, if_neg h6,
    if_neg h7, if_pos h]

theorem pStr_escStr : ∀ (l : List Char) (f : Nat) (rest : List Char),
    (escStr l).length < f → pStr f (escStr l ++ '"' :: rest) = some (l, rest) := by
  intro l
  induction l with
  | nil =>
    intro f rest hf
    cases f with
    | zero => omega
    | succ f => simp [escStr, pStr]
  | cons c cs ih =>
    intro f rest hf
    rw [escStr] at hf ⊢
    by_cases h1 : c = '"'
    · subst h1
      cases f with
      | zero => omega
      | succ f =>
        have hlen : (escStr cs).length < f := by simp [escChar] at hf; omega
        simp [escChar, pStr, ih f rest hlen]
    · by_cases h2 : c = '\\'
      · subst h2
        cases f with
        | zero => omega
        | succ f =>
          have hlen : (escStr cs).length < f := by simp [escChar] at hf; omega
          simp [escChar, pStr, ih f rest hlen]
      · by_cases h3 : c = Char.ofNat 8
        · subst h3
          cases f with
          | zero => omega
          | succ f =>
            have hlen : (escStr cs).length < f := by simp [escChar] at hf; omega
            simp [escChar, pStr, ih f rest hlen]
        · by_cases h4 : c = Char.ofNat 9
          · subst h4
            cases f with
            | zero => omega
            | succ f =>
              have hlen : (escStr cs).length < f := by simp [escChar] at hf; omega
              simp [escChar, pStr, ih f rest hlen]
          · by_cases h5 : c = Char.ofNat 10
            · subst h5
              cases f with
              | zero => omega
              | succ f =>
                have hlen : (escStr cs).length < f := by simp [escChar] at hf; omega
                simp [escChar, pStr, ih f rest hlen]
            · by_cases h6 : c = Char.ofNat 12
              · subst h6
                cases f with
                | zero => omega
                | succ f =>
                  have hlen : (escStr cs).length < f := by simp [escChar] at hf; omega
                  simp [escChar, pStr, ih f rest hlen]
              · by_cases h7 : c = Char.ofNat 13
                · subst h7
                  cases f with
                  | zero => omega
                  | succ f =>
                    have hlen : (escStr cs).length < f := by simp [escChar] at hf; omega
                    simp [escChar, pStr, ih f rest hlen]
                · by_cases h8 : c.toNat < 32
                  · rw [escChar, if_neg h1, if_neg h2, if_neg h3, if_neg h4, if_neg h5,
                      if_neg h6, if_neg h7, if_pos h8] at hf ⊢
                    cases f with
                    | zero => omega
                    | succ f =>
                      have hlen : (escStr cs).length < f := by simp at hf; omega
                      have e0 : hexVal '0' = some 0 := by decide
                      have ehi : hexVal (hexCh (c.toNat / 16)) = some (c.toNat / 16) :=
                        hexVal_hexCh _ (by omega)
                      have elo : hexVal (hexCh (c.toNat % 16)) = some (c.toNat % 16) :=
                        hexVal_hexCh _ (by omega)
                      have hval : c.toNat / 16 * 16 + c.toNat % 16 = c.toNat := by omega
                      simp [pStr, e0, ehi, elo, hval, Char.ofNat_toNat, ih f rest hlen]
                  · rw [escChar, if_neg h1, if_neg h2, if_neg h3, if_neg h4, if_neg h5,
                      if_neg h6, if_neg h7, if_neg h8] at hf ⊢
                    cases f with
                    | zero => omega
                    | succ f =>
                      have hlen : (escStr cs).length < f := by simp at hf; omega
                      simp [pStr, h1, h2, ih f rest hlen]

mutual
theorem needF_le : (j : Json) → needF j ≤ (enc j).length
  | .null => by simp [needF, enc, kwNull]
  | .bool b => by cases b <;> simp [needF, enc, kwTrue, kwFalse]
  | .num n => by
    have h := enc_len_pos (.num n)
    simp [needF] at h ⊢
    omega
  | .str s => by simp [needF, enc]
  | .arr [] => by simp [needF, enc, encArr]
  | .arr (x :: xs) => by
    have h := needElems_le (x :: xs) (by simp)
    simp [needF, enc] at h ⊢
    omega
  | .obj [] => by simp [needF, enc, encObj]
  | .obj (p :: kvs) => by
    have h := needMems_le (p :: kvs) (by simp)
    simp [needF, enc] at h ⊢
    omega

theorem needElems_le : (xs : List Json) → xs ≠ [] → needElems xs ≤ (encArr xs).length + 1
  | [], h => absurd rfl h
  | [x], _ => by
    have h := needF_le x
    simp [needElems, encArr]
    omega
  | x :: y :: t, _ => by
    have h1 := needF_le x
    have h2 := needElems_le (y :: t) (by simp)
    have h3 := enc_len_pos x
    simp [needElems, encArr] at h2 ⊢
    omega

theorem needMems_le : (kvs : List (String × Json)) → kvs ≠ [] →
    needMems kvs ≤ (encObj kvs).length + 1
  | [], h => absurd rfl h
  | [(k, v)], _ => by
    have h := needF_le v
    simp [needMems, encObj]
    omega
  | (k, v) :: p :: t, _ => by
    have h1 := needF_le v
    have h2 := needMems_le (p :: t) (by simp)
    have h3 := enc_len_pos v
    simp [needMems, encObj] at h2 ⊢
    omega
end

mutual
theorem pVal_enc : (f : Nat) → (j : Json) → (rest : List Char) → needF j ≤ f →
    startsDigit rest = false → pVal f (enc j ++ rest) = some (j, rest)
  | 0, j, _, hf, _ => absurd (Nat.le_trans (needF_pos j) hf) (by omega)
  | f + 1, .null, rest, _, _ => by simp [enc, kwNull, pVal]
  | f + 1, .bool b, rest, _, _ => by cases b <;> simp [enc, kwTrue, kwFalse, pVal]
  | f + 1, .num (Int.ofNat m), rest, _, hr => by
    have hall : ∀ ch ∈ natChars m, ch.isDigit = true := natChars_isDigit m
    obtain ⟨c, t, hct⟩ := List.exists_cons_of_ne_nil (natChars_ne_nil m)
    have hc : c.isDigit = true := hall c (by rw [hct]; exact List.mem_cons_self c t)
    have hspan : pDigits (natChars m ++ rest) = (natChars m, rest) :=
      pDigits_append _ _ hall hr
    have henc : enc (.num (Int.ofNat m)) = natChars m := by simp [enc, intChars]
    rw [henc, hct, List.cons_append, pVal_digit_head f c (t ++ rest) hc,
      ← List.cons_append, ← hct, hspan]
    simp [natOfDigits_natChars]
  | f + 1, .num (Int.negSucc m), rest, _, hr => by
    have hall : ∀ ch ∈ natChars (m + 1), ch.isDigit = true := natChars_isDigit (m + 1)
    obtain ⟨c, t, hct⟩ := List.exists_cons_of_ne_nil (natChars_ne_nil (m + 1))
    have hspan : pDigits (natChars (m + 1) ++ rest) = (natChars (m + 1), rest) :=
      pDigits_append _ _ hall hr
    have henc : enc (.num (Int.negSucc m)) = '-' :: natChars (m + 1) := by
      simp [enc, intChars]
    rw [henc, List.cons_append]
    have hnum : natOfDigits (natChars (m + 1)) = m + 1 := natOfDigits_natChars (m + 1)
    rw [hct, List.cons_append] at hspan ⊢
    simp [pVal, lbr, hspan, hct]
    rw [← hct, hnum, Int.negSucc_eq]
    push_cast
    ring
  | f + 1, .str s, rest, _, _ => by
    have hps := pStr_escStr s.data ((escStr s.data).length + (rest.length + 1) + 1) rest
      (by omega)
    simp [enc, pVal, hps]
  | f + 1, .arr [], rest, _, _ => by simp [enc, encArr, pVal]
  | f + 1, .arr (x :: xs), rest, hf, _ => by
    obtain ⟨c, t, hct, hcne⟩ := enc_head_ne x
    have ht2 : ∃ t2, encArr (x :: xs) = c :: t2 := by
      cases xs with
      | nil => exact ⟨t, by simp [encArr, hct]⟩
      | cons y ys => exact ⟨t ++ ',' :: encArr (y :: ys), by simp [encArr, hct]⟩
    obtain ⟨t2, ht2⟩ := ht2
    have helems : pElems f (encArr (x :: xs) ++ ']' :: rest) = some (x :: xs, rest) :=
      pElems_enc f (x :: xs) rest (by simp) (by simp [needF] at hf; omega)
    rw [ht2, List.cons_append] at helems
    have henc : enc (.arr (x :: xs)) ++ rest = '[' :: (c :: (t2 ++ ']' :: rest)) := by
      simp [enc, ht2]
    rw [henc]
    simp [pVal, lbr, hcne, helems]
  | f + 1, .obj [], rest, _, _ => by
    have henc : enc (.obj []) ++ rest = lbr :: (rbr :: rest) := by simp [enc, encObj]
    rw [henc, pVal_lbr_head]
    simp
  | f + 1, .obj (p :: kvs), rest, hf, _ => by
    have ht2 : ∃ t2, encObj (p :: kvs) = '"' :: t2 := by
      cases p with
      | mk k v =>
        cases kvs with
        | nil => exact ⟨_, rfl⟩
        | cons q qs => exact ⟨_, rfl⟩
    obtain ⟨t2, ht2⟩ := ht2
    have hmems : pMembers f (encObj (p :: kvs) ++ rbr :: rest) = some (p :: kvs, rest) :=
      pMembers_enc f (p :: kvs) rest (by simp) (by simp [needF] at hf; omega)
    rw [ht2, List.cons_append] at hmems
    have henc : enc (.obj (p :: kvs)) ++ rest = lbr :: ('"' :: (t2 ++ rbr :: rest)) := by
      simp [enc, ht2]
    rw [henc, pVal_lbr_head]
    rw [if_neg (by simp; decide)]
    simp [hmems]

theorem pElems_enc : (f : Nat) → (xs : List Json) → (rest : List Char) → xs ≠ [] →
    needElems xs ≤ f → pElems f (encArr xs ++ ']' :: rest) = some (xs, rest)
  | 0, xs, _, _, hf => absurd (Nat.le_trans (needElems_pos xs) hf) (by omega)
  | _ + 1, [], _, hne, _ => absurd rfl hne
  | f + 1, [x], rest, _, hf => by
    have hx : needF x ≤ f := by simp [needElems] at hf; omega
    have hv := pVal_enc f x (']' :: rest) hx (by rw [startsDigit_cons]; decide)
    simp [encArr, pElems, hv]
  | f + 1, x :: y :: t, rest, _, hf => by
    have hx : needF x ≤ f := by simp [needElems] at hf; omega
    have ht : needElems (y :: t) ≤ f := by simp [needElems] at hf; omega
    have hv := pVal_enc f x (',' :: (encArr (y :: t) ++ ']' :: rest)) hx
      (by rw [startsDigit_cons]; decide)
    have he := pElems_enc f (y :: t) rest (by simp) ht
    simp [encArr, pElems, List.append_assoc, hv, he]

theorem pMembers_enc : (f : Nat) → (kvs : List (String × Json)) → (rest : List Char) →
    kvs ≠ [] → needMems kvs ≤ f →
    pMembers f (encObj kvs ++ rbr :: rest) = some (kvs, rest)
  | 0, kvs, _, _, hf => absurd (Nat.le_trans (needMems_pos kvs) hf) (by omega)
  | _ + 1, [], _, hne, _ => absurd rfl hne
  | f + 1, [(k, v)], rest, _, hf => by
    have hv : needF v ≤ f := by simp [needMems] at hf; omega
    have hcs : encObj [(k, v)] ++ rbr :: rest
        = '"' :: (escStr k.data ++ '"' :: (':' :: (enc v ++ rbr :: rest))) := by
      simp [encObj]
    rw [hcs]
    have hk := pStr_escStr k.data
      ((escStr k.data ++ '"' :: (':' :: (enc v ++ rbr :: rest))).length + 1)
      (':' :: (enc v ++ rbr :: rest))
      (by simp [List.length_append]; omega)
    have hval := pVal_enc f v (rbr :: rest) hv (by rw [startsDigit_cons]; decide)
    have hcomma : ¬(rbr = ',') := by decide
    simp only [pMembers]
    rw [hk]
    simp [hval, hcomma]
  | f + 1, (k, v) :: p :: t, rest, _, hf => by
    have hv : needF v ≤ f := by simp [needMems] at hf; omega
    have ht : needMems (p :: t) ≤ f := by simp [needMems] at hf; omega
    have hcs : encObj ((k, v) :: p :: t) ++ rbr :: rest
        = '"' :: (escStr k.data ++ '"' ::
            (':' :: (enc v ++ ',' :: (encObj (p :: t) ++ rbr :: rest)))) := by
      simp [encObj]
    rw [hcs]
    have hk := pStr_escStr k.data
      ((escStr k.data ++ '"' :: (':' :: (enc v ++ ',' :: (encObj (p :: t) ++ rbr :: rest)))).length + 1)
      (':' :: (enc v ++ ',' :: (encObj (p :: t) ++ rbr :: rest)))
      (by simp [List.length_append]; omega)
    have hval := pVal_enc f v (',' :: (encObj (p :: t) ++ rbr :: rest)) hv
      (by rw [startsDigit_cons]; decide)
    have hm := pMembers_enc f (p :: t) rest (by simp) ht
    simp only [pMembers]
    rw [hk]
    simp [hval, hm]
end

/-- JSON encode/decode round-trip for every value. -/
theorem decodeJson_encodeJson (j : Json) : decodeJson (encodeJson j) = some j := by
  have h := pVal_enc ((enc j).length + 1) j [] (Nat.le_trans (needF_le j) (by omega)) rfl
  rw [List.append_nil] at h
  simp [decodeJson, encodeJson, h]

/-- C8: encoding the chat response to JSON text and decoding the text back yields
the response unchanged — no field loss and no value change, including the nested
values echoed from the request body. -/
theorem chat_response_roundtrip (kvs : List (String × Json)) (current_time : String)
    (now : Int) :
    ∃ r, resultOf (chat_completions (some (.obj kvs)) current_time now) = some r ∧
      decodeJson (encodeJson r) = some r :=
  ⟨mkResponse now (modelOf kvs) (apiOf kvs) (convOf kvs),
   resultOf_chat_obj kvs current_time now,
   decodeJson_encodeJson _⟩

end MockServer
